import Mathlib

/-!
Verification of the request-scoped stats aggregation pipeline of the
placeholder-image HTTP server in `src/server.js`.

The JavaScript source is shallowly embedded as follows.

* JS numbers obtained by coercing request strings (`+req.params.width`, etc.)
  are modelled by `JSNum`: `NaN`, signed infinity, or an exact rational.
  The model keeps rationals exact instead of rounding to IEEE doubles; all
  verified properties are insensitive to that idealisation.
* The string-to-number coercion (JS unary `+`) is modelled by `toNumber`,
  implementing the ECMAScript `StringNumericLiteral` grammar (whitespace
  trimming, empty string to `0`, signed decimal literals with fraction and
  exponent, `Infinity`, and the `0x`/`0o`/`0b` radix forms).
* The five `app.locals` collections form the `Stats` record.  JS objects used
  as string-keyed tables (`topSizes`, `topReferrers`) are modelled as
  association lists in insertion order; the verified properties do not depend
  on JS's special enumeration order for integer-like keys.
* Each Express middleware of the `/img/:width/:height` chain becomes a pure
  function; the chain itself is `handleImg`, which returns the response status
  together with the updated `Stats`.  The external `Imager` collaborator is
  out of scope (the spec excludes it), so the accepted path returns status 200.
-/

/-- A JavaScript number as produced by coercing a request string: `NaN`,
a signed infinity, or a finite value (modelled as an exact rational). -/
inductive JSNum where
  | nan : JSNum
  | inf : Bool → JSNum
  | num : ℚ → JSNum
deriving DecidableEq

/-- JS whitespace recognised by `ToNumber` (the characters trimmed before
parsing a string as a number). -/
def isWS (c : Char) : Bool :=
  c.toNat == 9 || c.toNat == 10 || c.toNat == 11 || c.toNat == 12 ||
  c.toNat == 13 || c.toNat == 32 || c.toNat == 160 || c.toNat == 0x1680 ||
  (decide (0x2000 ≤ c.toNat) && decide (c.toNat ≤ 0x200A)) ||
  c.toNat == 0x2028 || c.toNat == 0x2029 || c.toNat == 0x202F ||
  c.toNat == 0x205F || c.toNat == 0x3000 || c.toNat == 0xFEFF

/-- Strip leading and trailing JS whitespace. -/
def trimWS (l : List Char) : List Char :=
  ((l.dropWhile isWS).reverse.dropWhile isWS).reverse

/-- Value of a decimal digit string (most significant first). -/
def digitsToNat (l : List Char) : Nat :=
  l.foldl (fun a c => a * 10 + (c.toNat - 48)) 0

/-- Value of a hexadecimal digit, if any. -/
def hexVal (c : Char) : Option Nat :=
  if '0' ≤ c ∧ c ≤ '9' then some (c.toNat - 48)
  else if 'a' ≤ c ∧ c ≤ 'f' then some (c.toNat - 87)
  else if 'A' ≤ c ∧ c ≤ 'F' then some (c.toNat - 55)
  else none

/-- Parse a non-empty digit string in the given radix (used for the JS
`0x`/`0o`/`0b` literal forms); `none` when malformed. -/
def parseRadix (radix : Nat) (l : List Char) : Option Nat :=
  if l = [] then none
  else
    l.foldl
      (fun acc c =>
        acc.bind fun a =>
          match hexVal c with
          | some d => if d < radix then some (a * radix + d) else none
          | none => none)
      (some 0)

/-- Parse an optional exponent part (`e`/`E`, optional sign, digits) that must
consume the whole remaining input; `some 0` for empty input, `none` when
malformed. -/
def parseExp (l : List Char) : Option Int :=
  match l with
  | [] => some 0
  | c :: rest =>
    if c = 'e' ∨ c = 'E' then
      let p : Bool × List Char :=
        match rest with
        | '+' :: r => (false, r)
        | '-' :: r => (true, r)
        | r => (false, r)
      if p.2 ≠ [] ∧ p.2.all Char.isDigit then
        some (if p.1 then -(digitsToNat p.2 : Int) else (digitsToNat p.2 : Int))
      else none
    else none

/-- The rational `mant * 10 ^ scale`, computed so that a non-negative scale
stays inside natural-number arithmetic. -/
def decValue (mant : Nat) (scale : Int) : ℚ :=
  match scale with
  | Int.ofNat k => ((mant * 10 ^ k : Nat) : ℚ)
  | Int.negSucc k => mkRat mant (10 ^ (k + 1))

/-- Parse an unsigned decimal literal (`digits`, `digits.digits?`, `.digits`,
each with optional exponent), consuming the whole input.  The value is the
concatenated digit string (integer and fraction part) scaled by ten to the
exponent minus the fraction length. -/
def parseUnsignedDec (l : List Char) : Option ℚ :=
  let ip := l.takeWhile Char.isDigit
  let r1 := l.dropWhile Char.isDigit
  match r1 with
  | '.' :: r2 =>
    let fp := r2.takeWhile Char.isDigit
    let r3 := r2.dropWhile Char.isDigit
    if ip = [] ∧ fp = [] then none
    else
      (parseExp r3).map fun e => decValue (digitsToNat (ip ++ fp)) (e - fp.length)
  | _ =>
    if ip = [] then none
    else (parseExp r1).map fun e => decValue (digitsToNat ip) e

/-- Parse an optionally signed decimal literal or `Infinity`. -/
def parseSigned (l : List Char) : JSNum :=
  let p : Bool × List Char :=
    match l with
    | '+' :: r => (false, r)
    | '-' :: r => (true, r)
    | r => (false, r)
  if p.2 = "Infinity".data then JSNum.inf p.1
  else
    match parseUnsignedDec p.2 with
    | some q => JSNum.num (if p.1 then -q else q)
    | none => JSNum.nan

/-- Parse a `0x`/`0o`/`0b` digit string as a number, `NaN` when malformed. -/
def radixNum (radix : Nat) (l : List Char) : JSNum :=
  match parseRadix radix l with
  | some n => JSNum.num n
  | none => JSNum.nan

/-- The JS string-to-number coercion (unary `+` applied to a string), as used
on `req.params.width`, `req.params.height` and `req.query.square` in
`validateInputs` (src/server.js lines 127-133). -/
def toNumber (s : String) : JSNum :=
  match trimWS s.data with
  | [] => JSNum.num 0
  | '0' :: x :: rest =>
    if x = 'x' ∨ x = 'X' then radixNum 16 rest
    else if x = 'o' ∨ x = 'O' then radixNum 8 rest
    else if x = 'b' ∨ x = 'B' then radixNum 2 rest
    else parseSigned ('0' :: x :: rest)
  | l => parseSigned l

/-- The JS comparison `size > bound` on a coerced number (`NaN` compares
false, as in JS). -/
def JSNum.gt (x : JSNum) (bound : ℚ) : Bool :=
  match x with
  | JSNum.nan => false
  | JSNum.inf neg => !neg
  | JSNum.num q => decide (bound < q)

/-- The JS test `size > 0 && Number.isInteger(size)` from src/server.js
line 143 (`Number.isInteger` is false on `NaN` and infinities). -/
def JSNum.isPosInt (x : JSNum) : Bool :=
  match x with
  | JSNum.num q => decide (0 < q) && decide (q.den = 1)
  | _ => false

/-- Extract the natural-number value of a coerced dimension; exact on the
values that pass validation (positive integers). -/
def JSNum.toPosNat (x : JSNum) : Nat :=
  match x with
  | JSNum.num q => q.num.toNat
  | _ => 0

/-- An incoming `/img/:width/:height` request: the raw path segments, the raw
query values (absent or a string), the raw referrer header, and the request
path used by `applyRecentPaths`. -/
structure ImgRequest where
  width : String
  height : String
  square : Option String
  text : Option String
  referer : Option String
  path : String
deriving DecidableEq

/-- The validated request descriptor stored in `res.locals` by
`validateInputs` (src/server.js lines 153-154): `params` = width/height,
`queries` = square/text.  Validation guarantees that the numeric fields are
positive integers, so they are carried as naturals. -/
structure ValidReq where
  width : Nat
  height : Nat
  square : Option Nat
  text : Option String
deriving DecidableEq

/-- An entry of `app.locals.recentSizes`: `{ w, h }`. -/
structure SizeEntry where
  w : Nat
  h : Nat
deriving DecidableEq

/-- A record of `app.locals.topSizes`: `{ w, h, n }`. -/
structure TopSizeRec where
  w : Nat
  h : Nat
  n : Nat
deriving DecidableEq

/-- A record of `app.locals.topReferrers`: `{ ref, n }`. -/
structure TopRefRec where
  ref : String
  n : Nat
deriving DecidableEq

/-- The five `app.locals` stats collections (src/server.js lines 27-31).
The two JS objects are modelled as association lists in insertion order. -/
structure Stats where
  recentPaths : List String
  recentSizes : List SizeEntry
  recentTexts : List String
  topSizes : List (String × TopSizeRec)
  topReferrers : List (String × TopRefRec)
deriving DecidableEq

/-- The initial (and reset) state: all five collections empty. -/
def emptyStats : Stats :=
  { recentPaths := [], recentSizes := [], recentTexts := [],
    topSizes := [], topReferrers := [] }

/-- The coerced square dimension, when the JS condition
`square || square === ''` of src/server.js line 132 includes it (any present
string satisfies that condition; the coercion is applied at line 133). -/
def squareNumOf (req : ImgRequest) : Option JSNum :=
  match req.square with
  | some str => if str ≠ "" ∨ str = "" then some (toNumber str) else none
  | none => none

/-- The `dimensions` array of `validateInputs` (src/server.js lines 131-135):
coerced width and height, plus the coerced square when present. -/
def inScopeDims (req : ImgRequest) : List JSNum :=
  [toNumber req.width, toNumber req.height] ++ (squareNumOf req).toList

/-- The `validateInputs` middleware (src/server.js lines 126-156): maps the
literal text `"+"` to a single space, rejects with 403 when some dimension is
`> 2000`, then with 400 when some dimension is not a positive integer, and
otherwise produces the validated descriptor. -/
def validateInputs (req : ImgRequest) : Except Nat ValidReq :=
  let text := if req.text = some "+" then some " " else req.text
  let dimensions := inScopeDims req
  if dimensions.any (fun size => JSNum.gt size 2000) then Except.error 403
  else if !(dimensions.all fun size => JSNum.isPosInt size) then Except.error 400
  else
    Except.ok
      { width := JSNum.toPosNat (toNumber req.width),
        height := JSNum.toPosNat (toNumber req.height),
        square := (squareNumOf req).map JSNum.toPosNat,
        text := text }

/-- First-occurrence de-duplication, as performed by `[...new Set(xs)]` and by
the `findIndex`-based filter of `applyRecentSizes`; `seen` accumulates the
values already kept. -/
def dedupAux {α : Type} [DecidableEq α] (seen : List α) : List α → List α
  | [] => []
  | a :: as => if a ∈ seen then dedupAux seen as else a :: dedupAux (a :: seen) as

/-- First-occurrence de-duplication of a list. -/
def dedupFirst {α : Type} [DecidableEq α] (l : List α) : List α :=
  dedupAux [] l

/-- The UTF-8 bytes of a character. -/
def utf8Bytes (c : Char) : List Nat :=
  let n := c.toNat
  if n < 0x80 then [n]
  else if n < 0x800 then [0xC0 + n / 64, 0x80 + n % 64]
  else if n < 0x10000 then [0xE0 + n / 4096, 0x80 + n / 64 % 64, 0x80 + n % 64]
  else [0xF0 + n / 262144, 0x80 + n / 4096 % 64, 0x80 + n / 64 % 64, 0x80 + n % 64]

/-- Uppercase hexadecimal digit. -/
def hexDigitChar (n : Nat) : Char :=
  if n < 10 then Char.ofNat (48 + n) else Char.ofNat (55 + n)

/-- Percent-encoding of one byte. -/
def pctByte (b : Nat) : List Char :=
  ['%', hexDigitChar (b / 16), hexDigitChar (b % 16)]

/-- A character left unescaped by JS `encodeURIComponent`. -/
def isUnreserved (c : Char) : Bool :=
  ('A' ≤ c ∧ c ≤ 'Z') ∨ ('a' ≤ c ∧ c ≤ 'z') ∨ ('0' ≤ c ∧ c ≤ '9') ∨
    c ∈ ['-', '_', '.', '!', '~', '*', Char.ofNat 39, '(', ')']

/-- JS `encodeURIComponent`, used when `applyRecentPaths` re-serialises the
query string (src/server.js line 165). -/
def encodeURIComponent (s : String) : String :=
  String.mk
    (s.data.foldr
      (fun c acc =>
        (if isUnreserved c then [c] else ((utf8Bytes c).map pctByte).flatten) ++ acc)
      [])

/-- The re-serialised query string of `applyRecentPaths` (src/server.js lines
161-167): the keys of `res.locals.queries` in insertion order (`square`, then
`text`), keeping only truthy values (a number is truthy when non-zero, a
string when non-empty), each rendered as `key=encodeURIComponent(value)` and
joined by `&`. -/
def queryString (v : ValidReq) : String :=
  let parts :=
    (match v.square with
     | some n => if n ≠ 0 then ["square=" ++ encodeURIComponent (toString n)] else []
     | none => []) ++
    (match v.text with
     | some t => if t ≠ "" then ["text=" ++ encodeURIComponent t] else []
     | none => [])
  String.intercalate "&" parts

/-- The `applyRecentPaths` middleware (src/server.js lines 158-176): prepend
the reconstructed URL, de-duplicate keeping first occurrences, keep the first
ten. -/
def applyRecentPaths (path : String) (v : ValidReq) (s : Stats) : Stats :=
  let queriesStr := queryString v
  let url := path ++ (if queriesStr = "" then "" else "?") ++ queriesStr
  { s with recentPaths := (dedupFirst (url :: s.recentPaths)).take 10 }

/-- The `applyRecentSizes` middleware (src/server.js lines 178-195): prepend
`{w, h}`, keep only the first occurrence of each `(w,h)` pair, keep the first
ten. -/
def applyRecentSizes (v : ValidReq) (s : Stats) : Stats :=
  { s with
    recentSizes :=
      (dedupFirst ({ w := v.width, h := v.height : SizeEntry} :: s.recentSizes)).take 10 }

/-- The `applyRecentTexts` middleware (src/server.js lines 197-209): prepend
the text only when truthy (present and non-empty), then de-duplicate and keep
the first ten. -/
def applyRecentTexts (v : ValidReq) (s : Stats) : Stats :=
  let pushed :=
    match v.text with
    | some t => if t ≠ "" then t :: s.recentTexts else s.recentTexts
    | none => s.recentTexts
  { s with recentTexts := (dedupFirst pushed).take 10 }

/-- First value stored under a key in a string-keyed table (a JS object
property read). -/
def getKey {β : Type} (key : String) : List (String × β) → Option β
  | [] => none
  | (k, r) :: rest => if k = key then some r else getKey key rest

/-- Update the (first) record stored under `key` by `bump`, leaving every
other entry unchanged (a JS in-place property update). -/
def incrAt {β : Type} (key : String) (bump : β → β) : List (String × β) → List (String × β)
  | [] => []
  | (k, r) :: rest =>
    if k = key then (k, bump r) :: rest else (k, r) :: incrAt key bump rest

/-- The key `"{width}x{height}"` of `applyTopSizes` (src/server.js line 215). -/
def sizeKey (w h : Nat) : String :=
  toString w ++ "x" ++ toString h

/-- The `applyTopSizes` middleware (src/server.js lines 211-227): insert a
fresh `{w, h, n: 0}` record when the key is absent (a new JS object property
is appended in insertion order), then increment the record's count. -/
def applyTopSizes (v : ValidReq) (s : Stats) : Stats :=
  let key := sizeKey v.width v.height
  let t0 :=
    if getKey key s.topSizes = none then
      s.topSizes ++ [(key, { w := v.width, h := v.height, n := 0 : TopSizeRec })]
    else s.topSizes
  { s with topSizes := incrAt key (fun r => { r with n := r.n + 1 }) t0 }

/-- The `applyTopReferrers` middleware (src/server.js lines 229-245): when the
referrer header is truthy (present and non-empty), insert a fresh
`{ref, n: 0}` record when absent and increment its count; otherwise leave the
table untouched. -/
def applyTopReferrers (referer : Option String) (s : Stats) : Stats :=
  match referer with
  | some r =>
    if r = "" then s
    else
      let t0 :=
        if getKey r s.topReferrers = none then
          s.topReferrers ++ [(r, { ref := r, n := 0 : TopRefRec })]
        else s.topReferrers
      { s with topReferrers := incrAt r (fun rec => { rec with n := rec.n + 1 }) t0 }
  | none => s

/-- The `/img/:width/:height` route (src/server.js lines 34-43): validation
followed by the five stats stages.  An error in validation short-circuits the
chain with the error status and an unchanged state; on the accepted path the
request is handed to the external `Imager` (out of scope), represented here by
status 200. -/
def handleImg (req : ImgRequest) (s : Stats) : Nat × Stats :=
  match validateInputs req with
  | Except.error code => (code, s)
  | Except.ok v =>
    (200,
      applyTopReferrers req.referer
        (applyTopSizes v
          (applyRecentTexts v
            (applyRecentSizes v
              (applyRecentPaths req.path v s)))))

/-- The `GET /stats/paths/recent` handler (src/server.js lines 66-72): the
JSON body together with the (unchanged) state. -/
def serveRecentPaths (s : Stats) : List String × Stats :=
  (s.recentPaths, s)

/-- The `GET /stats/sizes/recent` handler (src/server.js lines 74-80). -/
def serveRecentSizes (s : Stats) : List SizeEntry × Stats :=
  (s.recentSizes, s)

/-- The `GET /stats/texts/recent` handler (src/server.js lines 82-88). -/
def serveRecentTexts (s : Stats) : List String × Stats :=
  (s.recentTexts, s)

/-- The comparator `(a, b) => b.n - a.n` of `serveTopSizes`: `a` sorts no
later than `b` exactly when `b.n - a.n ≤ 0`. -/
def TopSizeRec.ge (a b : TopSizeRec) : Prop :=
  b.n ≤ a.n

instance : DecidableRel TopSizeRec.ge :=
  fun a b => inferInstanceAs (Decidable (b.n ≤ a.n))

/-- The comparator `(a, b) => b.n - a.n` of `serveTopReferrers`. -/
def TopRefRec.ge (a b : TopRefRec) : Prop :=
  b.n ≤ a.n

instance : DecidableRel TopRefRec.ge :=
  fun a b => inferInstanceAs (Decidable (b.n ≤ a.n))

/-- The ranked list of `serveTopSizes` (src/server.js lines 92-94):
`Object.values` of the table (insertion order), stably sorted by descending
count, first ten records. -/
def topSizesList (t : List (String × TopSizeRec)) : List TopSizeRec :=
  ((t.map Prod.snd).insertionSort TopSizeRec.ge).take 10

/-- The `GET /stats/sizes/top` handler (src/server.js lines 90-99). -/
def serveTopSizes (s : Stats) : List TopSizeRec × Stats :=
  (topSizesList s.topSizes, s)

/-- The ranked list of `serveTopReferrers` (src/server.js lines 103-105). -/
def topReferrersList (t : List (String × TopRefRec)) : List TopRefRec :=
  ((t.map Prod.snd).insertionSort TopRefRec.ge).take 10

/-- The `GET /stats/referrers/top` handler (src/server.js lines 101-110). -/
def serveTopReferrers (s : Stats) : List TopRefRec × Stats :=
  (topReferrersList s.topReferrers, s)

/-- The `DELETE /stats` handler `resetStats` (src/server.js lines 112-123):
replace all five collections with empty values and answer 200. -/
def resetStats (_ : Stats) : Nat × Stats :=
  (200, emptyStats)

/-- The count stored under a key of the top-sizes table (0 when absent). -/
def sizeCount (t : List (String × TopSizeRec)) (key : String) : Nat :=
  match getKey key t with
  | some r => r.n
  | none => 0

/-- The count stored under a key of the top-referrers table (0 when absent). -/
def refCount (t : List (String × TopRefRec)) (key : String) : Nat :=
  match getKey key t with
  | some r => r.n
  | none => 0

/-- All counts stored in the two frequency tables are strictly positive. -/
def posCounts (s : Stats) : Prop :=
  (∀ p ∈ s.topSizes, 0 < p.2.n) ∧ (∀ p ∈ s.topReferrers, 0 < p.2.n)

/-! ## Basic list lemmas used throughout -/

theorem any_eq_true_of_mem {α : Type} {p : α → Bool} {l : List α} {x : α}
    (hx : x ∈ l) (hp : p x = true) : l.any p = true := by
  induction l with
  | nil => cases hx
  | cons a t ih =>
    rcases List.mem_cons.mp hx with h | h
    · subst h
      simp [List.any_cons, hp]
    · simp [List.any_cons, ih h]

theorem any_eq_false_of_forall {α : Type} {p : α → Bool} {l : List α}
    (h : ∀ x ∈ l, p x = false) : l.any p = false := by
  induction l with
  | nil => rfl
  | cons a t ih =>
    have ha := h a (List.mem_cons_self a t)
    have ht := ih fun x hx => h x (List.mem_cons_of_mem a hx)
    simp [List.any_cons, ha, ht]

theorem all_eq_false_of_mem {α : Type} {p : α → Bool} {l : List α} {x : α}
    (hx : x ∈ l) (hp : p x = false) : l.all p = false := by
  induction l with
  | nil => cases hx
  | cons a t ih =>
    rcases List.mem_cons.mp hx with h | h
    · subst h
      simp [List.all_cons, hp]
    · simp [List.all_cons, ih h]

/-! ## Lemmas about first-occurrence de-duplication -/

theorem mem_of_mem_dedupAux {α : Type} [DecidableEq α] {seen l : List α} {x : α}
    (h : x ∈ dedupAux seen l) : x ∈ l := by
  induction l generalizing seen with
  | nil => simp [dedupAux] at h
  | cons a t ih =>
    by_cases ha : a ∈ seen
    · simp only [dedupAux, if_pos ha] at h
      exact List.mem_cons_of_mem _ (ih h)
    · simp only [dedupAux, if_neg ha, List.mem_cons] at h
      rcases h with h | h
      · simp [h]
      · exact List.mem_cons_of_mem _ (ih h)

theorem not_mem_seen_of_mem_dedupAux {α : Type} [DecidableEq α] {seen l : List α} {x : α}
    (h : x ∈ dedupAux seen l) : x ∉ seen := by
  induction l generalizing seen with
  | nil => simp [dedupAux] at h
  | cons a t ih =>
    by_cases ha : a ∈ seen
    · simp only [dedupAux, if_pos ha] at h
      exact ih h
    · simp only [dedupAux, if_neg ha, List.mem_cons] at h
      rcases h with h | h
      · subst h
        exact ha
      · intro hx
        exact ih h (List.mem_cons_of_mem a hx)

theorem nodup_dedupAux {α : Type} [DecidableEq α] (seen l : List α) :
    (dedupAux seen l).Nodup := by
  induction l generalizing seen with
  | nil => simp [dedupAux]
  | cons a t ih =>
    by_cases ha : a ∈ seen
    · simpa [dedupAux, ha] using ih seen
    · simp only [dedupAux, if_neg ha]
      refine List.nodup_cons.mpr ⟨fun hmem => ?_, ih (a :: seen)⟩
      exact not_mem_seen_of_mem_dedupAux hmem (List.mem_cons_self a seen)

theorem nodup_dedupFirst {α : Type} [DecidableEq α] (l : List α) :
    (dedupFirst l).Nodup :=
  nodup_dedupAux [] l

theorem mem_of_mem_dedupFirst {α : Type} [DecidableEq α] {l : List α} {x : α}
    (h : x ∈ dedupFirst l) : x ∈ l :=
  mem_of_mem_dedupAux h

theorem dedupFirst_cons {α : Type} [DecidableEq α] (a : α) (l : List α) :
    dedupFirst (a :: l) = a :: dedupAux [a] l := by
  simp [dedupFirst, dedupAux]

theorem not_mem_dedupAux_self {α : Type} [DecidableEq α] (a : α) (l : List α) :
    a ∉ dedupAux [a] l :=
  fun h => not_mem_seen_of_mem_dedupAux h (List.mem_cons_self a [])

theorem head_take_dedupFirst {α : Type} [DecidableEq α] (a : α) (l : List α) :
    ((dedupFirst (a :: l)).take 10).head? = some a := by
  rw [dedupFirst_cons]
  rfl

theorem count_take_dedupFirst {α : Type} [DecidableEq α] (a : α) (l : List α) :
    ((dedupFirst (a :: l)).take 10).count a = 1 := by
  rw [dedupFirst_cons]
  have hnot : a ∉ (dedupAux [a] l).take 9 :=
    fun h => not_mem_dedupAux_self a l (List.take_subset _ _ h)
  show (a :: (dedupAux [a] l).take 9).count a = 1
  rw [List.count_cons_self, List.count_eq_zero.mpr hnot]

theorem length_take_dedup_le {α : Type} (l : List α) : (l.take 10).length ≤ 10 := by
  rw [List.length_take]
  exact min_le_left _ _

theorem nodup_take_dedupFirst {α : Type} [DecidableEq α] (l : List α) :
    ((dedupFirst l).take 10).Nodup :=
  (nodup_dedupFirst l).sublist (List.take_sublist _ _)

/-! ## Lemmas about the string-keyed tables -/

theorem getKey_incrAt_self {β : Type} (key : String) (bump : β → β) (t : List (String × β)) :
    getKey key (incrAt key bump t) = (getKey key t).map bump := by
  induction t with
  | nil => rfl
  | cons p rest ih =>
    obtain ⟨k, r⟩ := p
    by_cases hk : k = key
    · simp [incrAt, getKey, hk]
    · simp [incrAt, getKey, hk, ih]

theorem getKey_incrAt_ne {β : Type} {k key : String} (bump : β → β) (t : List (String × β))
    (h : k ≠ key) : getKey k (incrAt key bump t) = getKey k t := by
  induction t with
  | nil => rfl
  | cons p rest ih =>
    obtain ⟨k', r⟩ := p
    by_cases hk : k' = key
    · have hk2 : k' ≠ k := fun hh => h (hh ▸ hk)
      simp [incrAt, getKey, hk, hk2, Ne.symm h]
    · by_cases hk2 : k' = k
      · simp [incrAt, getKey, hk, hk2, h]
      · simp [incrAt, getKey, hk, hk2, ih]

theorem getKey_append {β : Type} (k : String) (t l : List (String × β)) :
    getKey k (t ++ l) =
      match getKey k t with
      | some r => some r
      | none => getKey k l := by
  induction t with
  | nil => rfl
  | cons p rest ih =>
    obtain ⟨k', r⟩ := p
    by_cases hk : k' = k
    · simp [getKey, hk]
    · simp [getKey, hk, ih]

theorem incrAt_append_of_none {β : Type} {key : String} (bump : β → β)
    {t : List (String × β)} (l : List (String × β)) (h : getKey key t = none) :
    incrAt key bump (t ++ l) = t ++ incrAt key bump l := by
  induction t with
  | nil => rfl
  | cons p rest ih =>
    obtain ⟨k, r⟩ := p
    by_cases hk : k = key
    · simp [getKey, hk] at h
    · simp only [getKey, if_neg hk] at h
      simp [incrAt, hk, ih h]

theorem mem_incrAt {β : Type} {key : String} {bump : β → β} {t : List (String × β)}
    {x : String × β} (h : x ∈ incrAt key bump t) :
    x ∈ t ∨ ∃ p ∈ t, x = (p.1, bump p.2) := by
  induction t with
  | nil => simp [incrAt] at h
  | cons p rest ih =>
    obtain ⟨k, r⟩ := p
    by_cases hk : k = key
    · simp only [incrAt, if_pos hk, List.mem_cons] at h
      rcases h with h | h
      · exact Or.inr ⟨(k, r), List.mem_cons_self _ _, h⟩
      · exact Or.inl (List.mem_cons_of_mem _ h)
    · simp only [incrAt, if_neg hk, List.mem_cons] at h
      rcases h with h | h
      · exact Or.inl (by simp [h])
      · rcases ih h with h2 | ⟨q, hq, hx⟩
        · exact Or.inl (List.mem_cons_of_mem _ h2)
        · exact Or.inr ⟨q, List.mem_cons_of_mem _ hq, hx⟩

/-! ## Frame lemmas: each pipeline stage touches only its own collection -/

theorem applyRecentPaths_recentSizes (p : String) (v : ValidReq) (s : Stats) :
    (applyRecentPaths p v s).recentSizes = s.recentSizes := rfl

theorem applyRecentPaths_recentTexts (p : String) (v : ValidReq) (s : Stats) :
    (applyRecentPaths p v s).recentTexts = s.recentTexts := rfl

theorem applyRecentPaths_topSizes (p : String) (v : ValidReq) (s : Stats) :
    (applyRecentPaths p v s).topSizes = s.topSizes := rfl

theorem applyRecentPaths_topReferrers (p : String) (v : ValidReq) (s : Stats) :
    (applyRecentPaths p v s).topReferrers = s.topReferrers := rfl

theorem applyRecentSizes_recentPaths (v : ValidReq) (s : Stats) :
    (applyRecentSizes v s).recentPaths = s.recentPaths := rfl

theorem applyRecentSizes_recentTexts (v : ValidReq) (s : Stats) :
    (applyRecentSizes v s).recentTexts = s.recentTexts := rfl

theorem applyRecentSizes_topSizes (v : ValidReq) (s : Stats) :
    (applyRecentSizes v s).topSizes = s.topSizes := rfl

theorem applyRecentSizes_topReferrers (v : ValidReq) (s : Stats) :
    (applyRecentSizes v s).topReferrers = s.topReferrers := rfl

theorem applyRecentTexts_recentPaths (v : ValidReq) (s : Stats) :
    (applyRecentTexts v s).recentPaths = s.recentPaths := rfl

theorem applyRecentTexts_recentSizes (v : ValidReq) (s : Stats) :
    (applyRecentTexts v s).recentSizes = s.recentSizes := rfl

theorem applyRecentTexts_topSizes (v : ValidReq) (s : Stats) :
    (applyRecentTexts v s).topSizes = s.topSizes := rfl

theorem applyRecentTexts_topReferrers (v : ValidReq) (s : Stats) :
    (applyRecentTexts v s).topReferrers = s.topReferrers := rfl

theorem applyTopSizes_recentPaths (v : ValidReq) (s : Stats) :
    (applyTopSizes v s).recentPaths = s.recentPaths := rfl

theorem applyTopSizes_recentSizes (v : ValidReq) (s : Stats) :
    (applyTopSizes v s).recentSizes = s.recentSizes := rfl

theorem applyTopSizes_recentTexts (v : ValidReq) (s : Stats) :
    (applyTopSizes v s).recentTexts = s.recentTexts := rfl

theorem applyTopSizes_topReferrers (v : ValidReq) (s : Stats) :
    (applyTopSizes v s).topReferrers = s.topReferrers := rfl

theorem applyTopReferrers_recentPaths (rf : Option String) (s : Stats) :
    (applyTopReferrers rf s).recentPaths = s.recentPaths := by
  cases rf with
  | none => rfl
  | some r => by_cases hr : r = "" <;> simp [applyTopReferrers, hr]

theorem applyTopReferrers_recentSizes (rf : Option String) (s : Stats) :
    (applyTopReferrers rf s).recentSizes = s.recentSizes := by
  cases rf with
  | none => rfl
  | some r => by_cases hr : r = "" <;> simp [applyTopReferrers, hr]

theorem applyTopReferrers_recentTexts (rf : Option String) (s : Stats) :
    (applyTopReferrers rf s).recentTexts = s.recentTexts := by
  cases rf with
  | none => rfl
  | some r => by_cases hr : r = "" <;> simp [applyTopReferrers, hr]

theorem applyTopReferrers_topSizes (rf : Option String) (s : Stats) :
    (applyTopReferrers rf s).topSizes = s.topSizes := by
  cases rf with
  | none => rfl
  | some r => by_cases hr : r = "" <;> simp [applyTopReferrers, hr]

/-! ## Behaviour of `validateInputs` and the route -/

theorem validateInputs_403 (req : ImgRequest)
    (h : (inScopeDims req).any (fun size => JSNum.gt size 2000) = true) :
    validateInputs req = Except.error 403 := by
  simp [validateInputs, h]

theorem validateInputs_400 (req : ImgRequest)
    (h1 : (inScopeDims req).any (fun size => JSNum.gt size 2000) = false)
    (h2 : (inScopeDims req).all (fun size => JSNum.isPosInt size) = false) :
    validateInputs req = Except.error 400 := by
  simp [validateInputs, h1, h2]

theorem validateInputs_ok_text (req : ImgRequest) (v : ValidReq)
    (hv : validateInputs req = Except.ok v) :
    v.text = if req.text = some "+" then some " " else req.text := by
  unfold validateInputs at hv
  by_cases h1 : (inScopeDims req).any (fun size => JSNum.gt size 2000) = true
  · simp [h1] at hv
  · by_cases h2 : (inScopeDims req).all (fun size => JSNum.isPosInt size) = true
    · rw [if_neg (by simp [h1]), if_neg (by simp [h2])] at hv
      cases hv
      rfl
    · rw [if_neg (by simp [h1]), if_pos (by simp [Bool.eq_false_iff.mpr h2])] at hv
      cases hv

theorem handleImg_error (req : ImgRequest) (s : Stats) (code : Nat)
    (h : validateInputs req = Except.error code) : handleImg req s = (code, s) := by
  unfold handleImg
  rw [h]

theorem handleImg_ok (req : ImgRequest) (s : Stats) (v : ValidReq)
    (h : validateInputs req = Except.ok v) :
    handleImg req s =
      (200,
        applyTopReferrers req.referer
          (applyTopSizes v
            (applyRecentTexts v
              (applyRecentSizes v
                (applyRecentPaths req.path v s))))) := by
  unfold handleImg
  rw [h]

/-! ## Counting lemmas for the two frequency tables -/

theorem sizeCount_applyTopSizes (v : ValidReq) (s : Stats) (k : String) :
    sizeCount (applyTopSizes v s).topSizes k =
      sizeCount s.topSizes k + (if k = sizeKey v.width v.height then 1 else 0) := by
  simp only [applyTopSizes, sizeCount]
  by_cases hg : getKey (sizeKey v.width v.height) s.topSizes = none
  · rw [if_pos hg, incrAt_append_of_none _ _ hg]
    by_cases hk : k = sizeKey v.width v.height
    · subst hk
      rw [getKey_append, hg]
      simp [incrAt, getKey]
    · rw [getKey_append]
      have hone : getKey k (incrAt (sizeKey v.width v.height)
          (fun r : TopSizeRec => { r with n := r.n + 1 })
          [(sizeKey v.width v.height,
            ({ w := v.width, h := v.height, n := 0 } : TopSizeRec))]) = none := by
        simp [incrAt, getKey, hk, Ne.symm hk]
      rw [hone]
      cases hgk : getKey k s.topSizes <;> simp [hk]
  · rw [if_neg hg]
    by_cases hk : k = sizeKey v.width v.height
    · subst hk
      rw [getKey_incrAt_self]
      cases hgk : getKey (sizeKey v.width v.height) s.topSizes with
      | none => exact absurd hgk hg
      | some r => simp
    · rw [getKey_incrAt_ne _ _ hk]
      simp [hk]

theorem pos_applyTopSizes (v : ValidReq) (s : Stats)
    (hs : ∀ p ∈ s.topSizes, 0 < p.2.n) :
    ∀ p ∈ (applyTopSizes v s).topSizes, 0 < p.2.n := by
  simp only [applyTopSizes]
  by_cases hg : getKey (sizeKey v.width v.height) s.topSizes = none
  · rw [if_pos hg, incrAt_append_of_none _ _ hg]
    intro p hp
    rcases List.mem_append.mp hp with hp | hp
    · exact hs p hp
    · simp [incrAt] at hp
      subst hp
      exact Nat.one_pos
  · rw [if_neg hg]
    intro p hp
    rcases mem_incrAt hp with hp | ⟨q, hq, hx⟩
    · exact hs p hp
    · rw [hx]
      exact Nat.succ_pos _

theorem refCount_applyTopReferrers (r : String) (s : Stats) (k : String) (hr : r ≠ "") :
    refCount (applyTopReferrers (some r) s).topReferrers k =
      refCount s.topReferrers k + (if k = r then 1 else 0) := by
  simp only [applyTopReferrers, refCount]
  rw [if_neg hr]
  by_cases hg : getKey r s.topReferrers = none
  · rw [if_pos hg, incrAt_append_of_none _ _ hg]
    by_cases hk : k = r
    · subst hk
      rw [getKey_append, hg]
      simp [incrAt, getKey]
    · rw [getKey_append]
      have hone : getKey k (incrAt r (fun rec : TopRefRec => { rec with n := rec.n + 1 })
          [(r, ({ ref := r, n := 0 } : TopRefRec))]) = none := by
        simp [incrAt, getKey, hk, Ne.symm hk]
      rw [hone]
      cases hgk : getKey k s.topReferrers <;> simp [hk]
  · rw [if_neg hg]
    by_cases hk : k = r
    · rw [hk, getKey_incrAt_self]
      cases hgk : getKey r s.topReferrers with
      | none => exact absurd (hk ▸ hgk) hg
      | some rec => simp
    · rw [getKey_incrAt_ne _ _ hk]
      simp [hk]

theorem applyTopReferrers_empty (s : Stats) : applyTopReferrers (some "") s = s := by
  simp [applyTopReferrers]

theorem pos_applyTopReferrers (rf : Option String) (s : Stats)
    (hs : ∀ p ∈ s.topReferrers, 0 < p.2.n) :
    ∀ p ∈ (applyTopReferrers rf s).topReferrers, 0 < p.2.n := by
  cases rf with
  | none => exact hs
  | some r =>
    by_cases hr : r = ""
    · subst hr
      rw [applyTopReferrers_empty]
      exact hs
    · simp only [applyTopReferrers]
      rw [if_neg hr]
      by_cases hg : getKey r s.topReferrers = none
      · rw [if_pos hg, incrAt_append_of_none _ _ hg]
        intro p hp
        rcases List.mem_append.mp hp with hp | hp
        · exact hs p hp
        · simp [incrAt] at hp
          subst hp
          exact Nat.one_pos
      · rw [if_neg hg]
        intro p hp
        rcases mem_incrAt hp with hp | ⟨q, hq, hx⟩
        · exact hs p hp
        · rw [hx]
          exact Nat.succ_pos _

/-! ## Sorting facts for the top-N endpoints -/

instance : IsTotal TopSizeRec TopSizeRec.ge :=
  ⟨fun a b => le_total b.n a.n⟩

instance : IsTrans TopSizeRec TopSizeRec.ge :=
  ⟨fun _ _ _ hab hbc => le_trans hbc hab⟩

instance : IsTotal TopRefRec TopRefRec.ge :=
  ⟨fun a b => le_total b.n a.n⟩

instance : IsTrans TopRefRec TopRefRec.ge :=
  ⟨fun _ _ _ hab hbc => le_trans hbc hab⟩

theorem topn_take_drop_spec {α : Type} (r : α → α → Prop) [DecidableRel r] [IsTotal α r]
    [IsTrans α r] (L : List α) :
    ((L.insertionSort r).take 10).length ≤ 10 ∧
    ((L.insertionSort r).take 10).Pairwise r ∧
    (((L.insertionSort r).take 10) ++ ((L.insertionSort r).drop 10)).Perm L ∧
    (∀ a ∈ (L.insertionSort r).take 10, ∀ b ∈ (L.insertionSort r).drop 10, r a b) := by
  have hsorted : (L.insertionSort r).Pairwise r := List.sorted_insertionSort r L
  refine ⟨?_, ?_, ?_, ?_⟩
  · rw [List.length_take]
    exact min_le_left _ _
  · exact hsorted.sublist (List.take_sublist _ _)
  · rw [List.take_append_drop]
    exact List.perm_insertionSort r L
  · have h2 := hsorted
    rw [← List.take_append_drop 10 (L.insertionSort r)] at h2
    exact fun a ha b hb => (List.pairwise_append.mp h2).2.2 a ha b hb

/-! ## Step lemmas for repeated requests -/

theorem handleImg_error_snd (req : ImgRequest) (s : Stats) (code : Nat)
    (h : validateInputs req = Except.error code) : (handleImg req s).2 = s := by
  rw [handleImg_error req s code h]

theorem handleImg_ok_snd (req : ImgRequest) (s : Stats) (v : ValidReq)
    (h : validateInputs req = Except.ok v) :
    (handleImg req s).2 =
      applyTopReferrers req.referer
        (applyTopSizes v
          (applyRecentTexts v
            (applyRecentSizes v
              (applyRecentPaths req.path v s)))) := by
  rw [handleImg_ok req s v h]

theorem count_sizes_top_step (v : ValidReq) (st : Stats) :
    (applyTopSizes v (applyRecentSizes v st)).recentSizes.count
      ({ w := v.width, h := v.height } : SizeEntry) = 1 := by
  rw [applyTopSizes_recentSizes]
  show ((dedupFirst (({ w := v.width, h := v.height } : SizeEntry) :: st.recentSizes)).take 10).count
      ({ w := v.width, h := v.height } : SizeEntry) = 1
  exact count_take_dedupFirst _ _

theorem sizeCount_step (v : ValidReq) (st : Stats) :
    sizeCount (applyTopSizes v (applyRecentSizes v st)).topSizes (sizeKey v.width v.height) =
      sizeCount st.topSizes (sizeKey v.width v.height) + 1 := by
  rw [sizeCount_applyTopSizes, applyRecentSizes_topSizes, if_pos rfl]

theorem sizeCount_iter (v : ValidReq) (n : Nat) (s : Stats) :
    sizeCount (((fun st => applyTopSizes v (applyRecentSizes v st))^[n]) s).topSizes
        (sizeKey v.width v.height) =
      sizeCount s.topSizes (sizeKey v.width v.height) + n := by
  induction n with
  | zero => rfl
  | succ m ih =>
    rw [Function.iterate_succ_apply']
    show sizeCount (applyTopSizes v (applyRecentSizes v
        (((fun st => applyTopSizes v (applyRecentSizes v st))^[m]) s))).topSizes
        (sizeKey v.width v.height) = _
    rw [sizeCount_step, ih]
    omega

theorem applyRecentTexts_push (v : ValidReq) (s2 : Stats) (t : String)
    (ht : v.text = some t) (htne : t ≠ "") :
    (applyRecentTexts v s2).recentTexts = (dedupFirst (t :: s2.recentTexts)).take 10 := by
  simp only [applyRecentTexts, ht]
  rw [if_pos htne]

theorem applyRecentTexts_nopush (v : ValidReq) (s2 : Stats)
    (h : v.text = none ∨ v.text = some "") :
    (applyRecentTexts v s2).recentTexts = (dedupFirst s2.recentTexts).take 10 := by
  rcases h with h | h <;> simp [applyRecentTexts, h]

theorem chain_recentSizes (rf : Option String) (v : ValidReq) (s1 : Stats) :
    (applyTopReferrers rf (applyTopSizes v (applyRecentTexts v
        (applyRecentSizes v s1)))).recentSizes =
      (dedupFirst (({ w := v.width, h := v.height } : SizeEntry) :: s1.recentSizes)).take 10 := by
  rw [applyTopReferrers_recentSizes, applyTopSizes_recentSizes, applyRecentTexts_recentSizes]
  rfl

/-! ## The claims -/

/-- C1: for every image request in which some in-scope dimension (width,
height, or square when present) coerces to a number greater than 2000, the
response status is 403 and the whole stats state — hence each of the five
collections — is unchanged by the request. -/
theorem c1_too_large_403_no_stats_change (req : ImgRequest) (s : Stats)
    (h : ∃ d ∈ inScopeDims req, JSNum.gt d 2000 = true) :
    handleImg req s = (403, s) := by
  obtain ⟨d, hd, hgt⟩ := h
  exact handleImg_error req s 403 (validateInputs_403 req (any_eq_true_of_mem hd hgt))

/-- Witness for C1: the request `GET /img/3000/100` from the empty state. -/
theorem c1_too_large_403_no_stats_change_witness :
    (∃ d ∈ inScopeDims ⟨"3000", "100", none, none, none, "/img/3000/100"⟩,
        JSNum.gt d 2000 = true) ∧
    handleImg ⟨"3000", "100", none, none, none, "/img/3000/100"⟩ emptyStats =
      (403, emptyStats) :=
  ⟨by decide, c1_too_large_403_no_stats_change _ _ (by decide)⟩

/-- C2 counterexample: `GET /img/0/3000` has an in-scope dimension that is not
a positive integer (width coerces to 0), yet the response status is 403, not
the claimed 400, because the size bound is checked first. -/
theorem c2_counterexample_zero_width_huge_height :
    JSNum.isPosInt (toNumber "0") = false ∧
    (handleImg ⟨"0", "3000", none, none, none, "/img/0/3000"⟩ emptyStats).1 = 403 ∧
    (handleImg ⟨"0", "3000", none, none, none, "/img/0/3000"⟩ emptyStats).1 ≠ 400 := by
  refine ⟨rfl, rfl, ?_⟩
  intro hh
  rw [show (handleImg ⟨"0", "3000", none, none, none, "/img/0/3000"⟩ emptyStats).1 = 403
    from rfl] at hh
  exact absurd hh (by decide)

/-- C2 (amended): for every image request in which some in-scope dimension is
not a positive integer and no in-scope dimension coerces to a number greater
than 2000, the response status is 400 and the stats state is unchanged. -/
theorem c2_amended_invalid_dimension_400 (req : ImgRequest) (s : Stats)
    (hno : ∀ d ∈ inScopeDims req, JSNum.gt d 2000 = false)
    (hbad : ∃ d ∈ inScopeDims req, JSNum.isPosInt d = false) :
    handleImg req s = (400, s) := by
  obtain ⟨d, hd, hb⟩ := hbad
  exact handleImg_error req s 400
    (validateInputs_400 req (any_eq_false_of_forall hno) (all_eq_false_of_mem hd hb))

/-- Witness for the amended C2: the request `GET /img/0/100`. -/
theorem c2_amended_invalid_dimension_400_witness :
    (∀ d ∈ inScopeDims ⟨"0", "100", none, none, none, "/img/0/100"⟩,
        JSNum.gt d 2000 = false) ∧
    (∃ d ∈ inScopeDims ⟨"0", "100", none, none, none, "/img/0/100"⟩,
        JSNum.isPosInt d = false) ∧
    handleImg ⟨"0", "100", none, none, none, "/img/0/100"⟩ emptyStats =
      (400, emptyStats) :=
  ⟨by decide, by decide, c2_amended_invalid_dimension_400 _ _ (by decide) (by decide)⟩

/-- C3: after every accepted image request with validated width and height,
the recent-sizes collection has length at most 10, contains no two entries
with the same `(w, h)` pair, and has the request's entry at index 0. -/
theorem c3_recent_sizes_bounded_unique_front (req : ImgRequest) (s : Stats) (v : ValidReq)
    (hv : validateInputs req = Except.ok v) :
    ((handleImg req s).2.recentSizes).length ≤ 10 ∧
    ((handleImg req s).2.recentSizes).Nodup ∧
    ((handleImg req s).2.recentSizes).head? = some { w := v.width, h := v.height } := by
  rw [handleImg_ok_snd req s v hv, chain_recentSizes, applyRecentPaths_recentSizes]
  exact ⟨length_take_dedup_le _, nodup_take_dedupFirst _, head_take_dedupFirst _ _⟩

/-- Witness for C3: the request `GET /img/100/200` from the empty state. -/
theorem c3_recent_sizes_bounded_unique_front_witness :
    validateInputs ⟨"100", "200", none, none, none, "/img/100/200"⟩ =
        Except.ok ⟨100, 200, none, none⟩ ∧
    (((handleImg ⟨"100", "200", none, none, none, "/img/100/200"⟩ emptyStats).2.recentSizes).length ≤ 10 ∧
     ((handleImg ⟨"100", "200", none, none, none, "/img/100/200"⟩ emptyStats).2.recentSizes).Nodup ∧
     ((handleImg ⟨"100", "200", none, none, none, "/img/100/200"⟩ emptyStats).2.recentSizes).head? =
       some { w := 100, h := 200 }) :=
  ⟨rfl, c3_recent_sizes_bounded_unique_front _ emptyStats ⟨100, 200, none, none⟩ rfl⟩

/-- C4: starting from any state, running the recent-sizes stage followed by
the top-sizes stage five times with the same validated width and height leaves
exactly one entry for that size in the recent-sizes list, while the top-sizes
count for the key `"{width}x{height}"` grows by exactly 5. -/
theorem c4_dedup_idempotent_counter_accumulates (v : ValidReq) (s : Stats) :
    (((fun st => applyTopSizes v (applyRecentSizes v st))^[5]) s).recentSizes.count
        ({ w := v.width, h := v.height } : SizeEntry) = 1 ∧
    sizeCount ((((fun st => applyTopSizes v (applyRecentSizes v st))^[5]) s)).topSizes
        (sizeKey v.width v.height) =
      sizeCount s.topSizes (sizeKey v.width v.height) + 5 := by
  constructor
  · rw [show (5 : Nat) = 4 + 1 from rfl, Function.iterate_succ_apply']
    exact count_sizes_top_step v _
  · exact sizeCount_iter v 5 s

/-- C5 counterexample: a *present but empty* referrer header value is falsy in
JS, so the accepted request `GET /img/10/10` with referrer `""` increments no
referrer record at all — the claim's "increments exactly one referrer record
by 1 when the referrer header is present" fails at this input. -/
theorem c5_counterexample_empty_referer_header :
    (handleImg ⟨"10", "10", none, none, some "", "/img/10/10"⟩ emptyStats).1 = 200 ∧
    (handleImg ⟨"10", "10", none, none, some "", "/img/10/10"⟩ emptyStats).2.topReferrers =
      [] :=
  ⟨rfl, rfl⟩

/-- C5 (amended): positive counts are preserved by every request; no count
ever decreases; each accepted request increments the count of exactly one size
key by 1, increments exactly one referrer count by 1 when the referrer header
is present with a non-empty value, and leaves the referrer table untouched
(no record created, no error) when the header is absent or empty. -/
theorem c5_amended_counter_invariants (req : ImgRequest) (s : Stats) :
    (posCounts s → posCounts (handleImg req s).2) ∧
    (∀ k, sizeCount s.topSizes k ≤ sizeCount (handleImg req s).2.topSizes k) ∧
    (∀ k, refCount s.topReferrers k ≤ refCount (handleImg req s).2.topReferrers k) ∧
    (∀ v, validateInputs req = Except.ok v →
      (∀ k, sizeCount (handleImg req s).2.topSizes k =
          sizeCount s.topSizes k + (if k = sizeKey v.width v.height then 1 else 0)) ∧
      (∀ r, req.referer = some r → r ≠ "" →
        ∀ k, refCount (handleImg req s).2.topReferrers k =
          refCount s.topReferrers k + (if k = r then 1 else 0)) ∧
      ((req.referer = none ∨ req.referer = some "") →
        (handleImg req s).2.topReferrers = s.topReferrers)) := by
  cases hval : validateInputs req with
  | error c =>
    rw [handleImg_error_snd req s c hval]
    refine ⟨fun hp => hp, fun k => le_refl _, fun k => le_refl _, fun v hv => ?_⟩
    cases hv
  | ok v0 =>
    rw [handleImg_ok_snd req s v0 hval]
    have hts : ∀ k,
        sizeCount (applyTopReferrers req.referer (applyTopSizes v0 (applyRecentTexts v0
          (applyRecentSizes v0 (applyRecentPaths req.path v0 s))))).topSizes k =
        sizeCount s.topSizes k + (if k = sizeKey v0.width v0.height then 1 else 0) := by
      intro k
      rw [applyTopReferrers_topSizes, sizeCount_applyTopSizes, applyRecentTexts_topSizes,
        applyRecentSizes_topSizes, applyRecentPaths_topSizes]
    have htr0 : (applyTopSizes v0 (applyRecentTexts v0 (applyRecentSizes v0
        (applyRecentPaths req.path v0 s)))).topReferrers = s.topReferrers := by
      rw [applyTopSizes_topReferrers, applyRecentTexts_topReferrers,
        applyRecentSizes_topReferrers, applyRecentPaths_topReferrers]
    refine ⟨?_, ?_, ?_, ?_⟩
    · intro hp
      constructor
      · intro p hpmem
        rw [applyTopReferrers_topSizes] at hpmem
        refine pos_applyTopSizes v0 _ ?_ p hpmem
        intro q hq
        rw [applyRecentTexts_topSizes, applyRecentSizes_topSizes,
          applyRecentPaths_topSizes] at hq
        exact hp.1 q hq
      · intro p hpmem
        refine pos_applyTopReferrers req.referer _ ?_ p hpmem
        intro q hq
        rw [htr0] at hq
        exact hp.2 q hq
    · intro k
      rw [hts k]
      exact Nat.le_add_right _ _
    · intro k
      cases hrf : req.referer with
      | none =>
        have hnone : applyTopReferrers none (applyTopSizes v0 (applyRecentTexts v0
            (applyRecentSizes v0 (applyRecentPaths req.path v0 s)))) =
            applyTopSizes v0 (applyRecentTexts v0 (applyRecentSizes v0
              (applyRecentPaths req.path v0 s))) := rfl
        rw [hnone, htr0]
      | some r =>
        by_cases hre : r = ""
        · subst hre
          rw [applyTopReferrers_empty, htr0]
        · rw [refCount_applyTopReferrers r _ k hre, htr0]
          exact Nat.le_add_right _ _
    · intro v hv
      cases hv
      refine ⟨hts, ?_, ?_⟩
      · intro r hr hrne k
        rw [hr, refCount_applyTopReferrers r _ k hrne, htr0]
      · intro hcase
        rcases hcase with hc | hc
        · rw [hc]
          have hnone : applyTopReferrers none (applyTopSizes v0 (applyRecentTexts v0
              (applyRecentSizes v0 (applyRecentPaths req.path v0 s)))) =
              applyTopSizes v0 (applyRecentTexts v0 (applyRecentSizes v0
                (applyRecentPaths req.path v0 s))) := rfl
          rw [hnone, htr0]
        · rw [hc, applyTopReferrers_empty, htr0]

/-- Witness for the amended C5: `GET /img/10/10` with referrer
`"http://e.com"` from the empty state increments the `"10x10"` size count and
the referrer count by one each. -/
theorem c5_amended_counter_invariants_witness :
    sizeCount (handleImg ⟨"10", "10", none, none, some "http://e.com", "/img/10/10"⟩
        emptyStats).2.topSizes "10x10" =
      sizeCount emptyStats.topSizes "10x10" + 1 ∧
    refCount (handleImg ⟨"10", "10", none, none, some "http://e.com", "/img/10/10"⟩
        emptyStats).2.topReferrers "http://e.com" =
      refCount emptyStats.topReferrers "http://e.com" + 1 := by
  have h := (c5_amended_counter_invariants
    ⟨"10", "10", none, none, some "http://e.com", "/img/10/10"⟩ emptyStats).2.2.2
    ⟨10, 10, none, none⟩ rfl
  constructor
  · have h1 := h.1 "10x10"
    rw [if_pos (show ("10x10" : String) = sizeKey 10 10 from rfl)] at h1
    exact h1
  · have h2 := h.2.1 "http://e.com" rfl (by decide) "http://e.com"
    rw [if_pos rfl] at h2
    exact h2

/-- C6: the validator maps the text query value `"+"` to a single space and
passes any other present value through unchanged; an accepted request records
the resulting text at the front of the recent-texts list when it is present
and non-empty, and records nothing (every entry afterwards was already there)
when it is absent or empty. -/
theorem c6_text_normalization_recent_texts (req : ImgRequest) (s : Stats) (v : ValidReq)
    (hv : validateInputs req = Except.ok v) :
    v.text = (if req.text = some "+" then some " " else req.text) ∧
    (∀ t, v.text = some t → t ≠ "" →
      ((handleImg req s).2.recentTexts).head? = some t) ∧
    ((v.text = none ∨ v.text = some "") →
      ∀ x ∈ (handleImg req s).2.recentTexts, x ∈ s.recentTexts) := by
  refine ⟨validateInputs_ok_text req v hv, ?_, ?_⟩
  · intro t ht htne
    rw [handleImg_ok_snd req s v hv, applyTopReferrers_recentTexts, applyTopSizes_recentTexts,
      applyRecentTexts_push v _ t ht htne, applyRecentSizes_recentTexts,
      applyRecentPaths_recentTexts]
    exact head_take_dedupFirst t s.recentTexts
  · intro hcase x hx
    rw [handleImg_ok_snd req s v hv, applyTopReferrers_recentTexts, applyTopSizes_recentTexts,
      applyRecentTexts_nopush v _ hcase, applyRecentSizes_recentTexts,
      applyRecentPaths_recentTexts] at hx
    exact mem_of_mem_dedupFirst (List.take_subset _ _ hx)

/-- Witness for C6: `GET /img/10/10?text=+` records `" "` (one space), not
`"+"`, at the front of recent-texts. -/
theorem c6_text_normalization_recent_texts_witness :
    validateInputs ⟨"10", "10", none, some "+", none, "/img/10/10"⟩ =
        Except.ok ⟨10, 10, none, some " "⟩ ∧
    ((handleImg ⟨"10", "10", none, some "+", none, "/img/10/10"⟩ emptyStats).2.recentTexts).head? =
      some " " :=
  ⟨rfl,
   (c6_text_normalization_recent_texts ⟨"10", "10", none, some "+", none, "/img/10/10"⟩
     emptyStats ⟨10, 10, none, some " "⟩ rfl).2.1 " " rfl (by decide)⟩

/-- C7: the reset operation replaces all five collections with empty initial
values and answers 200 unconditionally, so every stats read performed on the
state it leaves behind returns an empty array. -/
theorem c7_reset_clears_all_collections (s : Stats) :
    resetStats s = (200, emptyStats) ∧
    (serveRecentPaths (resetStats s).2).1 = [] ∧
    (serveRecentSizes (resetStats s).2).1 = [] ∧
    (serveRecentTexts (resetStats s).2).1 = [] ∧
    (serveTopSizes (resetStats s).2).1 = [] ∧
    (serveTopReferrers (resetStats s).2).1 = [] :=
  ⟨rfl, rfl, rfl, rfl, rfl, rfl⟩

/-- C8: for every state, the top-sizes and top-referrers read endpoints return
at most 10 records, sorted by descending count (so every returned record's
count is at least the count of every record of the table that is not
returned), and leave the state unchanged. -/
theorem c8_top_endpoints_sorted_bounded_readonly (s : Stats) :
    ((serveTopSizes s).1.length ≤ 10 ∧
     (serveTopSizes s).1.Pairwise TopSizeRec.ge ∧
     ((serveTopSizes s).1 ++
        ((s.topSizes.map Prod.snd).insertionSort TopSizeRec.ge).drop 10).Perm
       (s.topSizes.map Prod.snd) ∧
     (∀ a ∈ (serveTopSizes s).1,
        ∀ b ∈ ((s.topSizes.map Prod.snd).insertionSort TopSizeRec.ge).drop 10,
          b.n ≤ a.n) ∧
     (serveTopSizes s).2 = s) ∧
    ((serveTopReferrers s).1.length ≤ 10 ∧
     (serveTopReferrers s).1.Pairwise TopRefRec.ge ∧
     ((serveTopReferrers s).1 ++
        ((s.topReferrers.map Prod.snd).insertionSort TopRefRec.ge).drop 10).Perm
       (s.topReferrers.map Prod.snd) ∧
     (∀ a ∈ (serveTopReferrers s).1,
        ∀ b ∈ ((s.topReferrers.map Prod.snd).insertionSort TopRefRec.ge).drop 10,
          b.n ≤ a.n) ∧
     (serveTopReferrers s).2 = s) := by
  obtain ⟨h1, h2, h3, h4⟩ := topn_take_drop_spec TopSizeRec.ge (s.topSizes.map Prod.snd)
  obtain ⟨g1, g2, g3, g4⟩ := topn_take_drop_spec TopRefRec.ge (s.topReferrers.map Prod.snd)
  exact ⟨⟨h1, h2, h3, h4, rfl⟩, ⟨g1, g2, g3, g4, rfl⟩⟩

/-- C9 counterexample: with the square query present and empty, a width above
2000 still yields 403, so "therefore rejects the request with a 400 client
error" does not hold for every such request. -/
theorem c9_counterexample_square_empty_huge_width :
    toNumber "" = JSNum.num 0 ∧
    (handleImg ⟨"3000", "100", some "", none, none, "/img/3000/100"⟩ emptyStats).1 = 403 ∧
    (handleImg ⟨"3000", "100", some "", none, none, "/img/3000/100"⟩ emptyStats).1 ≠ 400 := by
  refine ⟨rfl, rfl, ?_⟩
  intro hh
  rw [show (handleImg ⟨"3000", "100", some "", none, none, "/img/3000/100"⟩ emptyStats).1 = 403
    from rfl] at hh
  exact absurd hh (by decide)

/-- C9 (amended): when the square query parameter is present with an
empty-string value, the validator coerces it to the number 0 and includes it
among the in-scope dimensions; provided no in-scope dimension coerces above
2000 the request is rejected with 400 and the stats state is unchanged. -/
theorem c9_amended_square_empty_coerces_zero_400 (req : ImgRequest) (s : Stats)
    (hsq : req.square = some "")
    (hno : ∀ d ∈ inScopeDims req, JSNum.gt d 2000 = false) :
    toNumber "" = JSNum.num 0 ∧
    JSNum.num 0 ∈ inScopeDims req ∧
    handleImg req s = (400, s) := by
  have h0 : toNumber "" = JSNum.num 0 := rfl
  have hsqn : squareNumOf req = some (JSNum.num 0) := by
    simp [squareNumOf, hsq, h0]
  have hmem : JSNum.num 0 ∈ inScopeDims req := by
    simp [inScopeDims, hsqn]
  refine ⟨h0, hmem, ?_⟩
  exact handleImg_error req s 400
    (validateInputs_400 req (any_eq_false_of_forall hno) (all_eq_false_of_mem hmem rfl))

/-- Witness for the amended C9: `GET /img/10/10?square=` (empty square). -/
theorem c9_amended_square_empty_coerces_zero_400_witness :
    (⟨"10", "10", some "", none, none, "/img/10/10"⟩ : ImgRequest).square = some "" ∧
    (∀ d ∈ inScopeDims ⟨"10", "10", some "", none, none, "/img/10/10"⟩,
        JSNum.gt d 2000 = false) ∧
    handleImg ⟨"10", "10", some "", none, none, "/img/10/10"⟩ emptyStats =
      (400, emptyStats) :=
  ⟨rfl, by decide,
   (c9_amended_square_empty_coerces_zero_400 ⟨"10", "10", some "", none, none, "/img/10/10"⟩
     emptyStats rfl (by decide)).2.2⟩

/-- C10: each of the five pipeline stages modifies only its own collection and
leaves the other four unchanged, for every validated request, every referrer
header, and every starting state. -/
theorem c10_stage_frame_conditions (p : String) (v : ValidReq) (rf : Option String)
    (s : Stats) :
    ((applyRecentPaths p v s).recentSizes = s.recentSizes ∧
     (applyRecentPaths p v s).recentTexts = s.recentTexts ∧
     (applyRecentPaths p v s).topSizes = s.topSizes ∧
     (applyRecentPaths p v s).topReferrers = s.topReferrers) ∧
    ((applyRecentSizes v s).recentPaths = s.recentPaths ∧
     (applyRecentSizes v s).recentTexts = s.recentTexts ∧
     (applyRecentSizes v s).topSizes = s.topSizes ∧
     (applyRecentSizes v s).topReferrers = s.topReferrers) ∧
    ((applyRecentTexts v s).recentPaths = s.recentPaths ∧
     (applyRecentTexts v s).recentSizes = s.recentSizes ∧
     (applyRecentTexts v s).topSizes = s.topSizes ∧
     (applyRecentTexts v s).topReferrers = s.topReferrers) ∧
    ((applyTopSizes v s).recentPaths = s.recentPaths ∧
     (applyTopSizes v s).recentSizes = s.recentSizes ∧
     (applyTopSizes v s).recentTexts = s.recentTexts ∧
     (applyTopSizes v s).topReferrers = s.topReferrers) ∧
    ((applyTopReferrers rf s).recentPaths = s.recentPaths ∧
     (applyTopReferrers rf s).recentSizes = s.recentSizes ∧
     (applyTopReferrers rf s).recentTexts = s.recentTexts ∧
     (applyTopReferrers rf s).topSizes = s.topSizes) :=
  ⟨⟨rfl, rfl, rfl, rfl⟩, ⟨rfl, rfl, rfl, rfl⟩, ⟨rfl, rfl, rfl, rfl⟩, ⟨rfl, rfl, rfl, rfl⟩,
   ⟨applyTopReferrers_recentPaths rf s, applyTopReferrers_recentSizes rf s,
    applyTopReferrers_recentTexts rf s, applyTopReferrers_topSizes rf s⟩⟩
